import Mathlib

/-!
Verification of the FlyingKFarms irrigation pipeline (src/app.py).

The development shallowly embeds the data-processing core of the
repository: the daily soil-water-balance simulation
(`run_irrigation_simulation`, app.py lines 128-184), the OpenET fetch
post-processing (`fetch_openet_variable`, lines 77-126, including the
pandas linear interpolation applied to NDVI), and the outer-merge
combination step of the app body (lines 285-292).  Python floats are
modelled by exact rationals, pandas missing values by `Option`, and a
dataframe row by an explicit record.
-/

namespace FlyingKFarms

/-- Calendar date as (year, month, day), mirroring the pandas Timestamp
fields `.year`, `.month`, `.day` used by the source. -/
structure SimDate where
  year : Nat
  month : Nat
  day : Nat
deriving DecidableEq, Repr

/-- Python lexicographic comparison `a <= b` of two (month, day) tuples,
as in `(5, 25) <= (current_date.month, current_date.day)` (app.py line 157). -/
def pairLe (a b : Nat × Nat) : Bool :=
  decide (a.1 < b.1) || (decide (a.1 = b.1) && decide (a.2 ≤ b.2))

/-- `(5, 25) <= (month, day) <= (9, 20)`: the pumping-season test of
app.py lines 157 and 161. -/
def is_in_season (d : SimDate) : Bool :=
  pairLe (5, 25) (d.month, d.day) && pairLe (d.month, d.day) (9, 20)

/-- Lexicographic `<=` on full dates (year, then month, then day); used only
to express ascending ordering of a date index. -/
def dateLe (a b : SimDate) : Bool :=
  decide (a.year < b.year)
    || (decide (a.year = b.year) && pairLe (a.month, a.day) (b.month, b.day))

/-- A date index is in ascending order when consecutive entries are
`dateLe`-related. -/
def datesSortedAsc : List SimDate → Bool
  | [] => true
  | [_] => true
  | a :: b :: rest => dateLe a b && datesSortedAsc (b :: rest)

/-- One row of the merged daily table fed to `run_irrigation_simulation`:
the date-index entry, the 'ET (in)' and 'Precipitation (in)' cells
(possibly missing), and every remaining column (e.g. 'NDVI') as
name/value pairs. -/
structure Row where
  date : SimDate
  et : Option ℚ
  precip : Option ℚ
  rest : List (String × Option ℚ)
deriving DecidableEq, Repr

/-- One row of the table returned by `run_irrigation_simulation`: the input
row (ET and precipitation after `fillna(0)`) with the three simulation
columns 'Plant Available Water (in)', 'Irrigation Applied (in)' and
'Consumed Groundwater (in)' appended. -/
structure OutRow where
  date : SimDate
  et : ℚ
  precip : ℚ
  rest : List (String × Option ℚ)
  paw : ℚ
  irr : ℚ
  consumed : ℚ
deriving DecidableEq, Repr

/-- `MAX_PAW = 6.0` inches (app.py line 133). -/
def MAX_PAW : ℚ := 6

/-- `IRRIGATION_TRIGGER_LEVEL = 3*MAX_PAW / 5` inches (app.py line 134). -/
def IRRIGATION_TRIGGER_LEVEL : ℚ := 3 * MAX_PAW / 5

/-- `MAX_DAILY_IRRIGATION = 0.25` inches (app.py line 135). -/
def MAX_DAILY_IRRIGATION : ℚ := 0.25

/-- Body of the daily loop (app.py lines 148-180) for one day i >= 1: from
the previous output row's date, stored PAW and running consumed total, and
the current input row, produce the current output row.  The consumed total
is threaded here because line 183 takes the running sum of the irrigation
column. -/
def stepOut (prevDate : SimDate) (prevPaw consumedPrev : ℚ) (r : Row) : OutRow :=
  let daily_et : ℚ := r.et.getD 0
  let daily_precip : ℚ := r.precip.getD 0
  let isIn : Bool := is_in_season r.date
  let prev_paw : ℚ := if isIn && !is_in_season prevDate then MAX_PAW else prevPaw
  let current_paw : ℚ := prev_paw - daily_et + daily_precip
  let irrigation_today : ℚ :=
    if isIn then
      if current_paw ≤ IRRIGATION_TRIGGER_LEVEL then
        min (MAX_PAW - current_paw) MAX_DAILY_IRRIGATION
      else 0
    else 0
  let final_paw : ℚ := max 0 (min (current_paw + irrigation_today) MAX_PAW)
  { date := r.date, et := daily_et, precip := daily_precip, rest := r.rest,
    paw := final_paw, irr := irrigation_today, consumed := consumedPrev + irrigation_today }

/-- The daily loop folded over the rows after day 0; the accumulator
arguments are the previous output row's date, PAW and consumed total. -/
def simRun : SimDate → ℚ → ℚ → List Row → List OutRow
  | _, _, _, [] => []
  | pd, pp, ac, r :: rest =>
    let o := stepOut pd pp ac r
    o :: simRun o.date o.paw o.consumed rest

/-- Day 0 of the simulation: ET/precipitation after `fillna(0)`, PAW seeded
at `MAX_PAW`, irrigation 0, consumed total 0 (app.py lines 143-145, 183). -/
def seedRow (r0 : Row) : OutRow :=
  { date := r0.date, et := r0.et.getD 0, precip := r0.precip.getD 0, rest := r0.rest,
    paw := MAX_PAW, irr := 0, consumed := 0 }

/-- app.py `run_irrigation_simulation` (lines 128-184): `fillna(0)` on the
ET and precipitation columns, day 0 seeded at `PAW = MAX_PAW` and
irrigation 0, days i >= 1 computed by the loop, and
'Consumed Groundwater (in)' the running sum of 'Irrigation Applied (in)'
(`cumsum`, so row 0 carries 0). -/
def run_irrigation_simulation : List Row → List OutRow
  | [] => []
  | r0 :: rest => seedRow r0 :: simRun (seedRow r0).date (seedRow r0).paw (seedRow r0).consumed rest

/-- Spec-side definition (spec section 4.3, steps 2-3): the pre-irrigation
balance for the current day, written from the spec's words — previous day's
PAW (overridden to `MAX_PAW` on a first in-season day) minus ET plus
precipitation.  To be compared against the code's `stepOut`. -/
def spec_balance (prev cur : OutRow) : ℚ :=
  (if is_in_season cur.date && !is_in_season prev.date then MAX_PAW else prev.paw)
    - cur.et + cur.precip

/-- Spec-side definition (spec section 4.3, step 4): irrigate
`min(MAX_PAW - balance, MAX_DAILY_IRRIGATION)` when in-season and the
balance is at or below the trigger, else 0. -/
def spec_irrigation (prev cur : OutRow) : ℚ :=
  if is_in_season cur.date = true ∧ spec_balance prev cur ≤ IRRIGATION_TRIGGER_LEVEL then
    min (MAX_PAW - spec_balance prev cur) MAX_DAILY_IRRIGATION
  else 0

/-- The three simulation output columns of a row, as one tuple. -/
def outSim (o : OutRow) : ℚ × ℚ × ℚ := (o.paw, o.irr, o.consumed)

/-- The part of an input row the simulation reads: date, ET, precipitation. -/
def keyOf (r : Row) : SimDate × Option ℚ × Option ℚ := (r.date, r.et, r.precip)

/-- A two-row input whose date index is descending. -/
def unsortedRows : List Row :=
  [ { date := ⟨2023, 6, 2⟩, et := some 1, precip := some 0, rest := [] },
    { date := ⟨2023, 6, 1⟩, et := some 1, precip := some 0, rest := [] } ]

/-- Running sum of a list (pandas `cumsum`), threading the accumulator. -/
def cumsum (acc : ℚ) : List ℚ → List ℚ
  | [] => []
  | x :: xs => (acc + x) :: cumsum (acc + x) xs

/-- Modelled from the spec: the alternate accounting
`consumedGroundwaterSimple` of spec section 4.3 — described there as
present in pipeline variants of the repository but absent from the src
snapshot, which only computes the bucket-model total.  It is the running
total of `max(ET[i] - precipitation[i], 0)` over the same merged series,
ignoring the bucket, trigger and seasonal logic; missing values count as 0
exactly as in the simulator's `fillna`. -/
def consumedGroundwaterSimple (rows : List Row) : List ℚ :=
  cumsum 0 (rows.map (fun r => max (r.et.getD 0 - r.precip.getD 0) 0))

/-- Position (strictly before any later occurrence) of the latest
observation at or below index i, with its value. -/
def prevValid (vals : List (Option ℚ)) : ℕ → Option (ℕ × ℚ)
  | 0 =>
    match vals.get? 0 with
    | some (some v) => some (0, v)
    | _ => none
  | j + 1 =>
    match vals.get? (j + 1) with
    | some (some v) => some (j + 1, v)
    | _ => prevValid vals j

def firstValidAux : ℕ → List (Option ℚ) → Option (ℕ × ℚ)
  | _, [] => none
  | k, none :: rest => firstValidAux (k + 1) rest
  | k, some v :: _ => some (k, v)

/-- Position of the earliest observation at or above index i, with its value. -/
def nextValid (vals : List (Option ℚ)) (i : ℕ) : Option (ℕ × ℚ) :=
  firstValidAux i (vals.drop i)

/-- Value the interpolated series takes at position i. -/
def interpAt (vals : List (Option ℚ)) (i : ℕ) : Option ℚ :=
  match vals.get? i with
  | some (some v) => some v
  | _ =>
    match prevValid vals i, nextValid vals i with
    | some (p, vp), some (n, vn) =>
        some (vp + (vn - vp) * (((i : ℚ) - (p : ℚ)) / ((n : ℚ) - (p : ℚ))))
    | some (_, vp), none => some vp
    | _, _ => none

/-- pandas `Series.interpolate(method='linear')` with its defaults
(`limit_direction='forward'`), as applied to NDVI in app.py line 120:
values are treated as equally spaced regardless of the index; a missing
run strictly between two observations is filled linearly by position;
missing values before the first observation stay missing; missing values
after the last observation are filled forward with the last observed
value. -/
def interpolateLinear (vals : List (Option ℚ)) : List (Option ℚ) :=
  (List.range vals.length).map (interpAt vals)

/-- A dataframe: named columns over a date index, row-major, every cell
nullable. -/
structure DF where
  colNames : List String
  rows : List (SimDate × List (Option ℚ))
deriving DecidableEq, Repr

/-- app.py `fetch_openet_variable` (lines 77-126), response handling only:
a request exception is caught and yields `none` (lines 124-126); an empty
response frame yields `none` (lines 112-113); otherwise the frame is
indexed by date, the value column renamed to `new_column_name`, NDVI
linearly interpolated (lines 119-120), and the single renamed column
returned. -/
def fetch_openet_variable (resp : Except Unit (List (SimDate × Option ℚ)))
    (new_column_name : String) (isNdvi : Bool) : Option DF :=
  match resp with
  | Except.error _ => none
  | Except.ok rows =>
    match rows with
    | [] => none
    | _ :: _ =>
      let vals := if isNdvi then interpolateLinear (rows.map Prod.snd)
                  else rows.map Prod.snd
      some { colNames := [new_column_name],
             rows := ((rows.map Prod.fst).zip vals).map (fun p => (p.1, [p.2])) }

def insertDateSorted (d : SimDate) : List SimDate → List SimDate
  | [] => [d]
  | x :: xs => if dateLe d x then d :: x :: xs else x :: insertDateSorted d xs

def sortDates : List SimDate → List SimDate
  | [] => []
  | x :: xs => insertDateSorted x (sortDates xs)

def dateUnion (a b : List SimDate) : List SimDate :=
  a ++ b.filter (fun d => !a.contains d)

def lookupRow (df : DF) (d : SimDate) : Option (List (Option ℚ)) :=
  (df.rows.find? (fun p => p.1 == d)).map Prod.snd

/-- pandas `pd.merge(..., left_index=True, right_index=True, how='outer')`
(app.py line 290): full outer join on the date index — the union of both
key sets sorted ascending, the left frame's columns then the right's, a
cell null when its date is absent from the owning frame. -/
def outerMerge (a b : DF) : DF :=
  { colNames := a.colNames ++ b.colNames,
    rows := (sortDates (dateUnion (a.rows.map Prod.fst) (b.rows.map Prod.fst))).map
      (fun d => (d, (lookupRow a d).getD (List.replicate a.colNames.length none)
                    ++ (lookupRow b d).getD (List.replicate b.colNames.length none))) }

/-- The combination step of the app body (app.py lines 285-292): keep the
frames whose fetch succeeded and outer-merge them left to right; when none
succeeded there is no combined frame (the app warns instead). -/
def combine_data_frames (dfs : List (Option DF)) : Option DF :=
  match dfs.filterMap id with
  | [] => none
  | d :: rest => some (rest.foldl outerMerge d)

def idxOf (s : String) : List String → Option ℕ
  | [] => none
  | c :: cs => if c = s then some 0 else (idxOf s cs).map (fun n => n + 1)

def getCell (vs : List (Option ℚ)) : Option ℕ → Option ℚ
  | none => none
  | some j => (vs.get? j).getD none

/-- The app hands the combined frame to the simulator when the 'ET (in)'
and 'Precipitation (in)' columns are present (app.py line 304); this
converts a combined frame to the simulator's row form, keeping every other
column in `rest`. -/
def dfToRows (df : DF) : List Row :=
  df.rows.map (fun p =>
    { date := p.1,
      et := getCell p.2 (idxOf "ET (in)" df.colNames),
      precip := getCell p.2 (idxOf "Precipitation (in)" df.colNames),
      rest := (df.colNames.zip p.2).filter
        (fun q => q.1 != "ET (in)" && q.1 != "Precipitation (in)") })

/-- Concrete two-day ET fetch body. -/
def etBodyEx : List (SimDate × Option ℚ) :=
  [(⟨2023, 1, 1⟩, some 1), (⟨2023, 1, 2⟩, some 2)]

/-- Concrete two-day precipitation fetch body. -/
def prBodyEx : List (SimDate × Option ℚ) :=
  [(⟨2023, 1, 2⟩, some 0), (⟨2023, 1, 3⟩, some (1/2))]

/-- Concrete four-day merged series: two out-of-season days (May 23-24)
followed by the first two pumping-season days (May 25-26). -/
def wrows : List Row :=
  [ { date := ⟨2023, 5, 23⟩, et := none, precip := none, rest := [("NDVI", some (1/2))] },
    { date := ⟨2023, 5, 24⟩, et := some 2, precip := some 0, rest := [] },
    { date := ⟨2023, 5, 25⟩, et := some 3, precip := some 0, rest := [] },
    { date := ⟨2023, 5, 26⟩, et := some (1/2), precip := some 0, rest := [] } ]

def w0 : OutRow := ⟨⟨2023, 5, 23⟩, 0, 0, [("NDVI", some (1/2))], 6, 0, 0⟩

def w1 : OutRow := ⟨⟨2023, 5, 24⟩, 2, 0, [], 4, 0, 0⟩

def w2 : OutRow := ⟨⟨2023, 5, 25⟩, 3, 0, [], 13/4, 1/4, 1/4⟩

def w3 : OutRow := ⟨⟨2023, 5, 26⟩, 1/2, 0, [], 3, 1/4, 1/2⟩

def wrow2 : Row := { date := ⟨2023, 5, 25⟩, et := some 3, precip := some 0, rest := [] }

/-- `wrows` identical except that the extra NDVI column is dropped. -/
def wrows2 : List Row :=
  [ { date := ⟨2023, 5, 23⟩, et := none, precip := none, rest := [] },
    { date := ⟨2023, 5, 24⟩, et := some 2, precip := some 0, rest := [] },
    { date := ⟨2023, 5, 25⟩, et := some 3, precip := some 0, rest := [] },
    { date := ⟨2023, 5, 26⟩, et := some (1/2), precip := some 0, rest := [] } ]

theorem simRun_cons (pd : SimDate) (pp ac : ℚ) (x : Row) (xs : List Row) :
    simRun pd pp ac (x :: xs) =
      stepOut pd pp ac x ::
        simRun (stepOut pd pp ac x).date (stepOut pd pp ac x).paw
          (stepOut pd pp ac x).consumed xs := rfl

theorem run_cons (r0 : Row) (rest : List Row) :
    run_irrigation_simulation (r0 :: rest) =
      seedRow r0 :: simRun r0.date MAX_PAW 0 rest := rfl

/-- Each output row of the loop is the step applied to the previous output
row's date, PAW and consumed total, together with the matching input row. -/
theorem simRun_get?_succ (l : List Row) (pd : SimDate) (pp ac : ℚ) (i : ℕ)
    (a : OutRow) (r : Row)
    (ha : (simRun pd pp ac l).get? i = some a)
    (hr : l.get? (i + 1) = some r) :
    (simRun pd pp ac l).get? (i + 1) = some (stepOut a.date a.paw a.consumed r) := by
  induction l generalizing pd pp ac i with
  | nil => simp [simRun] at ha
  | cons x xs ih =>
    cases i with
    | zero =>
      rw [simRun_cons] at ha ⊢
      simp only [List.get?_cons_zero, Option.some.injEq] at ha
      subst ha
      simp only [List.get?_cons_succ] at hr ⊢
      cases xs with
      | nil => simp at hr
      | cons y ys =>
        simp only [List.get?_cons_zero, Option.some.injEq] at hr
        subst hr
        rw [simRun_cons]
        rfl
    | succ j =>
      rw [simRun_cons] at ha ⊢
      simp only [List.get?_cons_succ] at ha hr ⊢
      exact ih _ _ _ _ ha hr

/-- Same statement lifted to `run_irrigation_simulation`. -/
theorem run_get?_succ (rows : List Row) (i : ℕ) (a : OutRow) (r : Row)
    (ha : (run_irrigation_simulation rows).get? i = some a)
    (hr : rows.get? (i + 1) = some r) :
    (run_irrigation_simulation rows).get? (i + 1) =
      some (stepOut a.date a.paw a.consumed r) := by
  cases rows with
  | nil => simp [run_irrigation_simulation] at ha
  | cons r0 rest =>
    rw [run_cons] at ha ⊢
    cases i with
    | zero =>
      simp only [List.get?_cons_zero, Option.some.injEq] at ha
      subst ha
      simp only [List.get?_cons_succ] at hr ⊢
      cases rest with
      | nil => simp at hr
      | cons y ys =>
        simp only [List.get?_cons_zero, Option.some.injEq] at hr
        subst hr
        rw [simRun_cons]
        rfl
    | succ j =>
      simp only [List.get?_cons_succ] at ha hr ⊢
      exact simRun_get?_succ _ _ _ _ _ _ _ ha hr

theorem simRun_length (pd : SimDate) (pp ac : ℚ) (l : List Row) :
    (simRun pd pp ac l).length = l.length := by
  induction l generalizing pd pp ac with
  | nil => rfl
  | cons x xs ih => rw [simRun_cons]; simp [ih]

theorem run_length (rows : List Row) :
    (run_irrigation_simulation rows).length = rows.length := by
  cases rows with
  | nil => rfl
  | cons r0 rest => rw [run_cons]; simp [simRun_length]

theorem IRRIGATION_TRIGGER_LEVEL_eq : IRRIGATION_TRIGGER_LEVEL = 18 / 5 := by
  norm_num [IRRIGATION_TRIGGER_LEVEL, MAX_PAW]

theorem irrAux_nonneg (b : ℚ) :
    0 ≤ if b ≤ IRRIGATION_TRIGGER_LEVEL then
          min (MAX_PAW - b) MAX_DAILY_IRRIGATION else 0 := by
  split
  · rename_i hb
    refine le_min ?_ (by norm_num [MAX_DAILY_IRRIGATION])
    rw [IRRIGATION_TRIGGER_LEVEL_eq] at hb
    simp only [MAX_PAW]
    linarith
  · exact le_refl (0 : ℚ)

theorem irrAux_le (b : ℚ) :
    (if b ≤ IRRIGATION_TRIGGER_LEVEL then
        min (MAX_PAW - b) MAX_DAILY_IRRIGATION else 0) ≤ MAX_DAILY_IRRIGATION := by
  split
  · exact min_le_right _ _
  · norm_num [MAX_DAILY_IRRIGATION]

/-- The daily irrigation amount computed by the loop body is nonnegative. -/
theorem stepOut_irr_nonneg (pd : SimDate) (pp ac : ℚ) (r : Row) :
    0 ≤ (stepOut pd pp ac r).irr := by
  simp only [stepOut]
  cases h : is_in_season r.date with
  | false => simp [h]
  | true => simpa [h] using irrAux_nonneg _

/-- The daily irrigation amount computed by the loop body never exceeds
`MAX_DAILY_IRRIGATION`. -/
theorem stepOut_irr_le (pd : SimDate) (pp ac : ℚ) (r : Row) :
    (stepOut pd pp ac r).irr ≤ MAX_DAILY_IRRIGATION := by
  simp only [stepOut]
  cases h : is_in_season r.date with
  | false => simp [h]; norm_num [MAX_DAILY_IRRIGATION]
  | true => simpa [h] using irrAux_le _

/-- The final PAW computed by the loop body is clamped to [0, MAX_PAW]. -/
theorem stepOut_paw_bounds (pd : SimDate) (pp ac : ℚ) (r : Row) :
    0 ≤ (stepOut pd pp ac r).paw ∧ (stepOut pd pp ac r).paw ≤ MAX_PAW := by
  simp only [stepOut]
  constructor
  · exact le_max_left _ _
  · exact max_le (by norm_num [MAX_PAW]) (min_le_right _ _)

theorem simRun_mem_paw_bounds (pd : SimDate) (pp ac : ℚ) (l : List Row) :
    ∀ x ∈ simRun pd pp ac l, 0 ≤ x.paw ∧ x.paw ≤ MAX_PAW := by
  induction l generalizing pd pp ac with
  | nil => intro x hx; simp [simRun] at hx
  | cons y ys ih =>
    intro x hx
    rw [simRun_cons] at hx
    rcases List.mem_cons.mp hx with h | h
    · subst h; exact stepOut_paw_bounds _ _ _ _
    · exact ih _ _ _ x h

theorem run_mem_paw_bounds (rows : List Row) :
    ∀ x ∈ run_irrigation_simulation rows, 0 ≤ x.paw ∧ x.paw ≤ MAX_PAW := by
  cases rows with
  | nil => intro x hx; simp [run_irrigation_simulation] at hx
  | cons r0 rest =>
    intro x hx
    rw [run_cons] at hx
    rcases List.mem_cons.mp hx with h | h
    · subst h
      constructor
      · norm_num [seedRow, MAX_PAW]
      · norm_num [seedRow]
    · exact simRun_mem_paw_bounds _ _ _ _ x h

theorem simRun_map_date (pd : SimDate) (pp ac : ℚ) (l : List Row) :
    (simRun pd pp ac l).map (fun o => o.date) = l.map (fun r => r.date) := by
  induction l generalizing pd pp ac with
  | nil => rfl
  | cons x xs ih => rw [simRun_cons]; simp only [List.map_cons, ih]; rfl

theorem simRun_map_rest (pd : SimDate) (pp ac : ℚ) (l : List Row) :
    (simRun pd pp ac l).map (fun o => o.rest) = l.map (fun r => r.rest) := by
  induction l generalizing pd pp ac with
  | nil => rfl
  | cons x xs ih => rw [simRun_cons]; simp only [List.map_cons, ih]; rfl

theorem simRun_map_et (pd : SimDate) (pp ac : ℚ) (l : List Row) :
    (simRun pd pp ac l).map (fun o => o.et) = l.map (fun r => r.et.getD 0) := by
  induction l generalizing pd pp ac with
  | nil => rfl
  | cons x xs ih => rw [simRun_cons]; simp only [List.map_cons, ih]; rfl

theorem simRun_map_precip (pd : SimDate) (pp ac : ℚ) (l : List Row) :
    (simRun pd pp ac l).map (fun o => o.precip) = l.map (fun r => r.precip.getD 0) := by
  induction l generalizing pd pp ac with
  | nil => rfl
  | cons x xs ih => rw [simRun_cons]; simp only [List.map_cons, ih]; rfl

theorem run_map_date (rows : List Row) :
    (run_irrigation_simulation rows).map (fun o => o.date) = rows.map (fun r => r.date) := by
  cases rows with
  | nil => rfl
  | cons r0 rest => rw [run_cons]; simp only [List.map_cons, simRun_map_date]; rfl

theorem run_map_rest (rows : List Row) :
    (run_irrigation_simulation rows).map (fun o => o.rest) = rows.map (fun r => r.rest) := by
  cases rows with
  | nil => rfl
  | cons r0 rest => rw [run_cons]; simp only [List.map_cons, simRun_map_rest]; rfl

theorem run_map_et (rows : List Row) :
    (run_irrigation_simulation rows).map (fun o => o.et) = rows.map (fun r => r.et.getD 0) := by
  cases rows with
  | nil => rfl
  | cons r0 rest => rw [run_cons]; simp only [List.map_cons, simRun_map_et]; rfl

theorem run_map_precip (rows : List Row) :
    (run_irrigation_simulation rows).map (fun o => o.precip) = rows.map (fun r => r.precip.getD 0) := by
  cases rows with
  | nil => rfl
  | cons r0 rest => rw [run_cons]; simp only [List.map_cons, simRun_map_precip]; rfl

theorem row_at_succ_of_run (rows : List Row) (i : ℕ) (cur : OutRow)
    (hc : (run_irrigation_simulation rows).get? (i + 1) = some cur) :
    ∃ r, rows.get? (i + 1) = some r := by
  obtain ⟨hlt, -⟩ := List.get?_eq_some.mp hc
  rw [run_length] at hlt
  exact ⟨rows.get ⟨i + 1, hlt⟩, List.get?_eq_get hlt⟩

theorem cur_eq_stepOut (rows : List Row) (i : ℕ) (prev cur : OutRow) (r : Row)
    (hp : (run_irrigation_simulation rows).get? i = some prev)
    (hc : (run_irrigation_simulation rows).get? (i + 1) = some cur)
    (hr : rows.get? (i + 1) = some r) :
    cur = stepOut prev.date prev.paw prev.consumed r :=
  Option.some_inj.mp ((hc.symm).trans (run_get?_succ rows i prev r hp hr))

/-- C1: the irrigation applied on each day i >= 1 is exactly the spec's
trigger rule — `min(MAX_PAW - balance, MAX_DAILY_IRRIGATION)` when the day
is in the pumping season and the pre-irrigation balance is at or below
`IRRIGATION_TRIGGER_LEVEL = 3.6`, and 0 otherwise; in particular it is 0 on
every out-of-season day and never exceeds `MAX_DAILY_IRRIGATION = 0.25`. -/
theorem claim_irrigation_rule (rows : List Row) (i : ℕ) (prev cur : OutRow)
    (hp : (run_irrigation_simulation rows).get? i = some prev)
    (hc : (run_irrigation_simulation rows).get? (i + 1) = some cur) :
    cur.irr = spec_irrigation prev cur
    ∧ (is_in_season cur.date = false → cur.irr = 0)
    ∧ cur.irr ≤ MAX_DAILY_IRRIGATION := by
  obtain ⟨r, hr⟩ := row_at_succ_of_run rows i cur hc
  have hcur := cur_eq_stepOut rows i prev cur r hp hc hr
  subst hcur
  refine ⟨?_, ?_, stepOut_irr_le _ _ _ _⟩
  · simp only [stepOut, spec_irrigation, spec_balance]
    by_cases h1 : is_in_season r.date = true
    · simp [h1]
    · simp [h1]
  · intro h
    simp only [stepOut] at h
    simp [stepOut, h]

/-- C2: cumulative consumed groundwater advances by exactly the day's
irrigation and is monotonically non-decreasing. -/
theorem claim_consumed_monotone (rows : List Row) (i : ℕ) (prev cur : OutRow)
    (hp : (run_irrigation_simulation rows).get? i = some prev)
    (hc : (run_irrigation_simulation rows).get? (i + 1) = some cur) :
    cur.consumed = prev.consumed + cur.irr ∧ prev.consumed ≤ cur.consumed := by
  obtain ⟨r, hr⟩ := row_at_succ_of_run rows i cur hc
  have hcur := cur_eq_stepOut rows i prev cur r hp hc hr
  subst hcur
  refine ⟨rfl, ?_⟩
  have h := stepOut_irr_nonneg prev.date prev.paw prev.consumed r
  calc prev.consumed = prev.consumed + 0 := by ring
  _ ≤ prev.consumed + (stepOut prev.date prev.paw prev.consumed r).irr := by
      exact add_le_add_left h _
  _ = (stepOut prev.date prev.paw prev.consumed r).consumed := rfl

/-- C3: every simulated plant-available-water value, the seeded day 0
included, lies in the interval [0, MAX_PAW]. -/
theorem claim_paw_bounds (rows : List Row) (i : ℕ) (x : OutRow)
    (hx : (run_irrigation_simulation rows).get? i = some x) :
    0 ≤ x.paw ∧ x.paw ≤ MAX_PAW :=
  run_mem_paw_bounds rows x (List.get?_mem hx)

/-- C4: on a first in-season day (in-season today, out-of-season yesterday)
the day's output row is computed with `prevPAW = MAX_PAW` in place of the
carried plant-available-water value. -/
theorem claim_season_reset (rows : List Row) (i : ℕ) (prev cur : OutRow) (r : Row)
    (hp : (run_irrigation_simulation rows).get? i = some prev)
    (hr : rows.get? (i + 1) = some r)
    (hc : (run_irrigation_simulation rows).get? (i + 1) = some cur)
    (hin : is_in_season r.date = true)
    (hout : is_in_season prev.date = false) :
    cur = stepOut prev.date MAX_PAW prev.consumed r := by
  have hcur := cur_eq_stepOut rows i prev cur r hp hc hr
  rw [hcur]
  simp [stepOut, hin, hout]

theorem stepOut_congr (pd : SimDate) (pp ac : ℚ) (r1 r2 : Row)
    (h : keyOf r1 = keyOf r2) :
    (stepOut pd pp ac r1).date = (stepOut pd pp ac r2).date
    ∧ (stepOut pd pp ac r1).paw = (stepOut pd pp ac r2).paw
    ∧ (stepOut pd pp ac r1).irr = (stepOut pd pp ac r2).irr
    ∧ (stepOut pd pp ac r1).consumed = (stepOut pd pp ac r2).consumed := by
  obtain ⟨hd, he, hpr⟩ : r1.date = r2.date ∧ r1.et = r2.et ∧ r1.precip = r2.precip := by
    simpa [keyOf, Prod.ext_iff] using h
  refine ⟨?_, ?_, ?_, ?_⟩ <;> simp [stepOut, hd, he, hpr]

theorem simRun_congr (l1 l2 : List Row) (pd : SimDate) (pp ac : ℚ)
    (h : l1.map keyOf = l2.map keyOf) :
    (simRun pd pp ac l1).map outSim = (simRun pd pp ac l2).map outSim := by
  induction l1 generalizing l2 pd pp ac with
  | nil =>
    have h2 : l2 = [] := by
      cases l2 with
      | nil => rfl
      | cons y ys => simp at h
    rw [h2]
  | cons x xs ih =>
    cases l2 with
    | nil => simp at h
    | cons y ys =>
      simp only [List.map_cons, List.cons.injEq] at h
      obtain ⟨hxy, hrest⟩ := h
      obtain ⟨hd, hpaw, hirr, hcon⟩ := stepOut_congr pd pp ac x y hxy
      rw [simRun_cons, simRun_cons]
      simp only [List.map_cons]
      rw [hd, hpaw, hcon]
      refine congrArg₂ _ ?_ (ih ys _ _ _ hrest)
      simp [outSim, hpaw, hirr, hcon]

theorem run_congr (rows1 rows2 : List Row)
    (h : rows1.map keyOf = rows2.map keyOf) :
    (run_irrigation_simulation rows1).map outSim
      = (run_irrigation_simulation rows2).map outSim := by
  cases rows1 with
  | nil =>
    have h2 : rows2 = [] := by
      cases rows2 with
      | nil => rfl
      | cons y ys => simp at h
    rw [h2]
  | cons a as =>
    cases rows2 with
    | nil => simp at h
    | cons b bs =>
      simp only [List.map_cons, List.cons.injEq] at h
      obtain ⟨hab, hrest⟩ := h
      have hcomp : a.date = b.date ∧ a.et = b.et ∧ a.precip = b.precip := by
        simpa [keyOf, Prod.ext_iff] using hab
      rw [run_cons, run_cons]
      simp only [List.map_cons]
      rw [hcomp.1]
      exact congrArg₂ _ rfl (simRun_congr as bs _ _ _ hrest)

theorem map_keyOf_of_projections (l1 l2 : List Row)
    (hd : l1.map (fun r => r.date) = l2.map (fun r => r.date))
    (he : l1.map (fun r => r.et) = l2.map (fun r => r.et))
    (hp : l1.map (fun r => r.precip) = l2.map (fun r => r.precip)) :
    l1.map keyOf = l2.map keyOf := by
  induction l1 generalizing l2 with
  | nil =>
    cases l2 with
    | nil => rfl
    | cons y ys => simp at hd
  | cons x xs ih =>
    cases l2 with
    | nil => simp at hd
    | cons y ys =>
      simp only [List.map_cons, List.cons.injEq] at hd he hp ⊢
      exact ⟨by simp [keyOf, hd.1, he.1, hp.1], ih ys hd.2 he.2 hp.2⟩

/-- C10: the three simulation output columns depend only on the date index
and the ET and precipitation columns: two inputs agreeing there (but free to
differ in any other column) produce identical plant-available-water,
irrigation-applied and consumed-groundwater columns. -/
theorem claim_noninterference (rows1 rows2 : List Row)
    (hd : rows1.map (fun r => r.date) = rows2.map (fun r => r.date))
    (he : rows1.map (fun r => r.et) = rows2.map (fun r => r.et))
    (hp : rows1.map (fun r => r.precip) = rows2.map (fun r => r.precip)) :
    (run_irrigation_simulation rows1).map outSim
      = (run_irrigation_simulation rows2).map outSim :=
  run_congr rows1 rows2 (map_keyOf_of_projections rows1 rows2 hd he hp)

/-- C9: the simulator preserves the date index, every other pre-existing
column (`rest`), and the ET and precipitation columns up to `fillna(0)`,
one output row per input row; the only additions are the three simulation
fields of `OutRow`. -/
theorem claim_frame_preservation (rows : List Row) :
    (run_irrigation_simulation rows).map (fun o => o.date) = rows.map (fun r => r.date)
    ∧ (run_irrigation_simulation rows).map (fun o => o.rest) = rows.map (fun r => r.rest)
    ∧ (run_irrigation_simulation rows).map (fun o => o.et) = rows.map (fun r => r.et.getD 0)
    ∧ (run_irrigation_simulation rows).map (fun o => o.precip)
        = rows.map (fun r => r.precip.getD 0)
    ∧ (run_irrigation_simulation rows).length = rows.length :=
  ⟨run_map_date rows, run_map_rest rows, run_map_et rows, run_map_precip rows,
    run_length rows⟩

/-- C6 (amended): the simulator performs no date-ordering validation — on
any input, including one whose date index is not ascending, it runs the
recurrence over the rows in the order given and returns one output row per
input row. -/
theorem claim_no_order_validation (rows : List Row)
    (_h : datesSortedAsc (rows.map (fun r => r.date)) = false) :
    (run_irrigation_simulation rows).length = rows.length
    ∧ (run_irrigation_simulation rows).map (fun o => o.date)
        = rows.map (fun r => r.date) :=
  ⟨run_length rows, run_map_date rows⟩

/-- C6 counterexample: on a table whose date index is not ascending the
simulator does not raise or report any error — it runs the day-by-day
recurrence and returns a full result. -/
theorem claim_unsorted_counterexample :
    datesSortedAsc (unsortedRows.map (fun r => r.date)) = false
    ∧ run_irrigation_simulation unsortedRows =
      [ { date := ⟨2023, 6, 2⟩, et := 1, precip := 0, rest := [],
          paw := 6, irr := 0, consumed := 0 },
        { date := ⟨2023, 6, 1⟩, et := 1, precip := 0, rest := [],
          paw := 5, irr := 0, consumed := 0 } ] := by
  constructor
  · decide
  · norm_num [run_irrigation_simulation, unsortedRows, simRun, stepOut, seedRow,
      is_in_season, pairLe, MAX_PAW, IRRIGATION_TRIGGER_LEVEL, MAX_DAILY_IRRIGATION,
      min_def, max_def]

theorem claim_no_order_validation_witness :
    datesSortedAsc (unsortedRows.map (fun r => r.date)) = false
    ∧ ((run_irrigation_simulation unsortedRows).length = unsortedRows.length
       ∧ (run_irrigation_simulation unsortedRows).map (fun o => o.date)
           = unsortedRows.map (fun r => r.date)) :=
  ⟨by decide, claim_no_order_validation unsortedRows (by decide)⟩

theorem cumsum_length (acc : ℚ) (xs : List ℚ) : (cumsum acc xs).length = xs.length := by
  induction xs generalizing acc with
  | nil => rfl
  | cons y ys ih => simp [cumsum, ih]

theorem cumsum_get?_succ (xs : List ℚ) (acc : ℚ) (i : ℕ) (a b x : ℚ)
    (ha : (cumsum acc xs).get? i = some a)
    (hb : (cumsum acc xs).get? (i + 1) = some b)
    (hx : xs.get? (i + 1) = some x) : b = a + x := by
  induction xs generalizing acc i with
  | nil => simp [cumsum] at ha
  | cons y ys ih =>
    cases i with
    | zero =>
      simp only [cumsum, List.get?_cons_zero, Option.some.injEq] at ha
      simp only [cumsum, List.get?_cons_succ] at hb
      simp only [List.get?_cons_succ] at hx
      cases ys with
      | nil => simp [cumsum] at hb
      | cons z zs =>
        simp only [cumsum, List.get?_cons_zero, Option.some.injEq] at hb
        simp only [List.get?_cons_zero, Option.some.injEq] at hx
        subst ha
        subst hx
        subst hb
        rfl
    | succ j =>
      simp only [cumsum, List.get?_cons_succ] at ha hb hx
      exact ih (acc + y) j ha hb hx

/-- C5: the spec-modelled alternate accounting satisfies its defining
recurrence — each entry advances the previous one by
`max(ET[i] - precipitation[i], 0)` — and both accountings (the simulator's
bucket-model output and this simple one) are computed over the very same
merged series, one value per row. -/
theorem claim_simple_accounting (rows : List Row) (i : ℕ) (r : Row) (a b : ℚ)
    (hr : rows.get? (i + 1) = some r)
    (ha : (consumedGroundwaterSimple rows).get? i = some a)
    (hb : (consumedGroundwaterSimple rows).get? (i + 1) = some b) :
    b = a + max (r.et.getD 0 - r.precip.getD 0) 0
    ∧ (consumedGroundwaterSimple rows).length = rows.length
    ∧ (run_irrigation_simulation rows).length = rows.length := by
  refine ⟨?_, ?_, run_length rows⟩
  · refine cumsum_get?_succ _ 0 i a b _ ha hb ?_
    rw [List.get?_map, hr]
    rfl
  · simp [consumedGroundwaterSimple, cumsum_length]

/-- C7 (amended): a failed fetch yields a `none` result (a value, not an
exception), sibling fetches are independent calls, and the combination
step proceeds over whichever variables succeeded — but a variable whose
fetch failed is dropped from the merge entirely, so with NDVI failed and ET
and precipitation fetched the combined frame's columns are exactly
'ET (in)' and 'Precipitation (in)' (no NDVI column), and the simulation
still runs over the combined frame, one output row per merged row. -/
theorem claim_partial_fetch (etBody prBody : List (SimDate × Option ℚ))
    (ndviResp : Except Unit (List (SimDate × Option ℚ)))
    (hE : etBody ≠ []) (hP : prBody ≠ [])
    (hN : fetch_openet_variable ndviResp "NDVI" true = none) :
    (∀ (nm : String) (b : Bool), fetch_openet_variable (Except.error ()) nm b = none)
    ∧ ∃ df, combine_data_frames
        [fetch_openet_variable (Except.ok etBody) "ET (in)" false,
         fetch_openet_variable ndviResp "NDVI" true,
         fetch_openet_variable (Except.ok prBody) "Precipitation (in)" false] = some df
      ∧ df.colNames = ["ET (in)", "Precipitation (in)"]
      ∧ "NDVI" ∉ df.colNames
      ∧ (run_irrigation_simulation (dfToRows df)).length = df.rows.length := by
  obtain ⟨e, es, rfl⟩ : ∃ e es, etBody = e :: es := by
    cases etBody with
    | nil => exact absurd rfl hE
    | cons e es => exact ⟨e, es, rfl⟩
  obtain ⟨q, qs, rfl⟩ : ∃ q qs, prBody = q :: qs := by
    cases prBody with
    | nil => exact absurd rfl hP
    | cons q qs => exact ⟨q, qs, rfl⟩
  refine ⟨fun nm b => rfl, ?_⟩
  have het : fetch_openet_variable (Except.ok (e :: es)) "ET (in)" false
      = some { colNames := ["ET (in)"],
               rows := (((e :: es).map Prod.fst).zip ((e :: es).map Prod.snd)).map
                 (fun p => (p.1, [p.2])) } := rfl
  have hpr : fetch_openet_variable (Except.ok (q :: qs)) "Precipitation (in)" false
      = some { colNames := ["Precipitation (in)"],
               rows := (((q :: qs).map Prod.fst).zip ((q :: qs).map Prod.snd)).map
                 (fun p => (p.1, [p.2])) } := rfl
  rw [hN, het, hpr]
  refine ⟨outerMerge _ _, rfl, rfl, ?_, ?_⟩
  · simp [outerMerge]
  · rw [run_length]
    simp [dfToRows]

/-- C7 counterexample: with the NDVI fetch failed and ET and precipitation
fetched, the combined frame does NOT carry an NDVI column — its columns are
exactly 'ET (in)' and 'Precipitation (in)'. -/
theorem claim_partial_fetch_counterexample :
    (combine_data_frames
        [fetch_openet_variable (Except.ok etBodyEx) "ET (in)" false,
         fetch_openet_variable (Except.error ()) "NDVI" true,
         fetch_openet_variable (Except.ok prBodyEx) "Precipitation (in)" false]).map
      (fun df => df.colNames) = some ["ET (in)", "Precipitation (in)"]
    ∧ "NDVI" ∉ ["ET (in)", "Precipitation (in)"] := by
  refine ⟨rfl, ?_⟩
  simp

theorem claim_partial_fetch_witness :
    (etBodyEx ≠ [] ∧ prBodyEx ≠ []
      ∧ fetch_openet_variable (Except.error ()) "NDVI" true = none)
    ∧ ((∀ (nm : String) (b : Bool), fetch_openet_variable (Except.error ()) nm b = none)
       ∧ ∃ df, combine_data_frames
           [fetch_openet_variable (Except.ok etBodyEx) "ET (in)" false,
            fetch_openet_variable (Except.error ()) "NDVI" true,
            fetch_openet_variable (Except.ok prBodyEx) "Precipitation (in)" false] = some df
         ∧ df.colNames = ["ET (in)", "Precipitation (in)"]
         ∧ "NDVI" ∉ df.colNames
         ∧ (run_irrigation_simulation (dfToRows df)).length = df.rows.length) :=
  ⟨⟨by simp [etBodyEx], by simp [prBodyEx], rfl⟩,
    claim_partial_fetch etBodyEx prBodyEx (Except.error ())
      (by simp [etBodyEx]) (by simp [prBodyEx]) rfl⟩

theorem interpolateLinear_get? (vals : List (Option ℚ)) (i : ℕ) (h : i < vals.length) :
    (interpolateLinear vals).get? i = some (interpAt vals i) := by
  rw [interpolateLinear, List.get?_map, List.get?_range h]
  rfl

theorem prevValid_none (vals : List (Option ℚ)) (i : ℕ)
    (h : ∀ j, j ≤ i → vals.get? j = some none) : prevValid vals i = none := by
  induction i with
  | zero =>
    have h0 := h 0 (le_refl 0)
    simp only [prevValid, h0]
  | succ j ih =>
    have hj := h (j + 1) (le_refl _)
    simp only [prevValid, hj]
    exact ih (fun k hk => h k (Nat.le_succ_of_le hk))

theorem prevValid_some (vals : List (Option ℚ)) (p : ℕ) (vp : ℚ)
    (hv : vals.get? p = some (some vp)) (i : ℕ) (hp : p ≤ i)
    (hmiss : ∀ j, p < j → j ≤ i → vals.get? j = some none) :
    prevValid vals i = some (p, vp) := by
  induction i with
  | zero =>
    have hp0 : p = 0 := Nat.le_zero.mp hp
    subst hp0
    simp only [prevValid, hv]
  | succ j ih =>
    cases Nat.eq_or_lt_of_le hp with
    | inl heq =>
      subst heq
      simp only [prevValid, hv]
    | inr hlt =>
      have hj := hmiss (j + 1) hlt (le_refl _)
      simp only [prevValid, hj]
      exact ih (Nat.lt_succ_iff.mp hlt)
        (fun k hk1 hk2 => hmiss k hk1 (Nat.le_succ_of_le hk2))

theorem firstValidAux_all_none (l : List (Option ℚ)) (k : ℕ)
    (h : ∀ x ∈ l, x = none) : firstValidAux k l = none := by
  induction l generalizing k with
  | nil => rfl
  | cons x xs ih =>
    have hx : x = none := h x (List.mem_cons_self x xs)
    subst hx
    simp only [firstValidAux]
    exact ih (k + 1) (fun y hy => h y (List.mem_cons_of_mem _ hy))

theorem firstValidAux_some (l : List (Option ℚ)) (n : ℕ) (vn : ℚ)
    (hv : l.get? n = some (some vn))
    (hmiss : ∀ j, j < n → l.get? j = some none) (k : ℕ) :
    firstValidAux k l = some (k + n, vn) := by
  induction l generalizing n k with
  | nil => simp at hv
  | cons x xs ih =>
    cases n with
    | zero =>
      simp only [List.get?_cons_zero, Option.some.injEq] at hv
      subst hv
      rfl
    | succ m =>
      have hx : x = none := by
        have := hmiss 0 (Nat.succ_pos m)
        simpa using this
      subst hx
      simp only [firstValidAux]
      have hres := ih m (by simpa using hv)
        (fun j hj => by
          have := hmiss (j + 1) (Nat.succ_lt_succ hj)
          simpa using this) (k + 1)
      rw [hres]
      have harith : k + 1 + m = k + (m + 1) := by omega
      rw [harith]

theorem nextValid_some (vals : List (Option ℚ)) (i n : ℕ) (vn : ℚ)
    (hin : i ≤ n) (hv : vals.get? n = some (some vn))
    (hmiss : ∀ j, i ≤ j → j < n → vals.get? j = some none) :
    nextValid vals i = some (n, vn) := by
  unfold nextValid
  have h1 : (vals.drop i).get? (n - i) = some (some vn) := by
    rw [List.get?_drop, Nat.add_sub_cancel' hin]
    exact hv
  have h2 : ∀ j, j < n - i → (vals.drop i).get? j = some none := by
    intro j hj
    rw [List.get?_drop]
    exact hmiss (i + j) (Nat.le_add_right i j) (by omega)
  have := firstValidAux_some (vals.drop i) (n - i) vn h1 h2 i
  rw [this]
  congr 2
  omega

theorem nextValid_none (vals : List (Option ℚ)) (i : ℕ)
    (hmiss : ∀ j, i ≤ j → j < vals.length → vals.get? j = some none) :
    nextValid vals i = none := by
  unfold nextValid
  apply firstValidAux_all_none
  intro x hx
  obtain ⟨n, hn⟩ := List.mem_iff_get?.mp hx
  have hlt : n < (vals.drop i).length := by
    by_contra hge
    rw [List.get?_eq_none.mpr (le_of_not_lt hge)] at hn
    simp at hn
  rw [List.get?_drop] at hn
  have hlen : i + n < vals.length := by
    rw [List.length_drop] at hlt
    omega
  have hm := hmiss (i + n) (Nat.le_add_right i n) hlen
  rw [hm] at hn
  exact (Option.some_inj.mp hn).symm

/-- C8 (amended): the NDVI fetch returns the pandas-interpolated series, in
which a missing value strictly between two observations is filled by
position-linear interpolation between the nearest observations, a missing
value before the first observation stays missing, and a missing value
after the last observation is filled forward with the last observed value
(so the trailing edge IS filled, unlike the leading edge). -/
theorem claim_ndvi_interpolation (vals : List (Option ℚ)) (i : ℕ)
    (hi : i < vals.length) :
    ((∀ j, j ≤ i → vals.get? j = some none) →
      (interpolateLinear vals).get? i = some none)
    ∧ (∀ p n vp vn, p < i → i < n →
        vals.get? p = some (some vp) → vals.get? n = some (some vn) →
        (∀ j, p < j → j < n → vals.get? j = some none) →
        (interpolateLinear vals).get? i
          = some (some (vp + (vn - vp) * (((i : ℚ) - (p : ℚ)) / ((n : ℚ) - (p : ℚ))))))
    ∧ (∀ p vp, p < i → vals.get? p = some (some vp) →
        (∀ j, p < j → j < vals.length → vals.get? j = some none) →
        (interpolateLinear vals).get? i = some (some vp))
    ∧ (∀ v : ℚ, vals.get? i = some (some v) →
        (interpolateLinear vals).get? i = some (some v))
    ∧ (∀ (body : List (SimDate × Option ℚ)), body ≠ [] → ∀ nm : String,
        fetch_openet_variable (Except.ok body) nm true
          = some { colNames := [nm],
                   rows := ((body.map Prod.fst).zip
                       (interpolateLinear (body.map Prod.snd))).map
                     (fun p => (p.1, [p.2])) }) := by
  refine ⟨?_, ?_, ?_, ?_, ?_⟩
  · intro h
    rw [interpolateLinear_get? vals i hi]
    have hvi := h i (le_refl i)
    have hpv := prevValid_none vals i h
    simp only [interpAt, hvi, hpv]
  · intro p n vp vn hpi hin hvp hvn hmiss
    rw [interpolateLinear_get? vals i hi]
    have hvi : vals.get? i = some none := hmiss i hpi hin
    have hpv := prevValid_some vals p vp hvp i (le_of_lt hpi)
      (fun j hj1 hj2 => hmiss j hj1 (lt_of_le_of_lt hj2 hin))
    have hnv := nextValid_some vals i n vn (le_of_lt hin) hvn
      (fun j hj1 hj2 => hmiss j (lt_of_lt_of_le hpi hj1) hj2)
    simp only [interpAt, hvi, hpv, hnv]
  · intro p vp hpi hvp hmiss
    rw [interpolateLinear_get? vals i hi]
    have hvi : vals.get? i = some none := hmiss i hpi hi
    have hpv := prevValid_some vals p vp hvp i (le_of_lt hpi)
      (fun j hj1 hj2 => hmiss j hj1 (lt_of_le_of_lt hj2 hi))
    have hnv := nextValid_none vals i
      (fun j hj1 hj2 => hmiss j (lt_of_lt_of_le hpi hj1) hj2)
    simp only [interpAt, hvi, hpv, hnv]
  · intro v hv
    rw [interpolateLinear_get? vals i hi]
    simp only [interpAt, hv]
  · intro body hb nm
    obtain ⟨x, xs, rfl⟩ : ∃ x xs, body = x :: xs := by
      cases body with
      | nil => exact absurd rfl hb
      | cons x xs => exact ⟨x, xs, rfl⟩
    rfl

/-- C8 counterexample: in the series [missing, 1, missing, 3, missing] the
final value lies after the last observation, yet interpolation returns 3
there (forward fill), not a missing value — refuting "missing values at
the edges of the date range remain missing" at the trailing edge. -/
theorem claim_ndvi_counterexample :
    ([none, some (1 : ℚ), none, some 3, none] : List (Option ℚ)).get? 4 = some none
    ∧ (interpolateLinear [none, some (1 : ℚ), none, some 3, none]).get? 4
        = some (some 3) := by
  refine ⟨rfl, ?_⟩
  rw [interpolateLinear_get? _ 4 (by decide)]
  have hvi : ([none, some (1 : ℚ), none, some 3, none] : List (Option ℚ)).get? 4
      = some none := rfl
  have hpv : prevValid [none, some (1 : ℚ), none, some 3, none] 4 = some (3, 3) := by
    refine prevValid_some [none, some (1 : ℚ), none, some 3, none] 3 3 rfl 4
      (by omega) ?_
    intro j hj1 hj2
    have hj : j = 4 := by omega
    subst hj
    rfl
  have hnv : nextValid [none, some (1 : ℚ), none, some 3, none] 4 = none := by
    refine nextValid_none _ 4 ?_
    intro j hj1 hj2
    have hlen : ([none, some (1 : ℚ), none, some 3, none] : List (Option ℚ)).length = 5 :=
      rfl
    rw [hlen] at hj2
    have hj : j = 4 := by omega
    subst hj
    rfl
  simp only [interpAt, hvi, hpv, hnv]

theorem claim_ndvi_interpolation_witness :
    (0 : ℕ) < ([none, some (1 : ℚ)] : List (Option ℚ)).length
    ∧ (interpolateLinear [none, some (1 : ℚ)]).get? 0 = some none :=
  ⟨by decide,
    (claim_ndvi_interpolation [none, some (1 : ℚ)] 0 (by decide)).1
      (fun j hj => by
        have h0 : j = 0 := Nat.le_zero.mp hj
        subst h0
        rfl)⟩

theorem wrows_run_eval : run_irrigation_simulation wrows = [w0, w1, w2, w3] := by
  norm_num [run_irrigation_simulation, wrows, simRun, stepOut, seedRow, w0, w1, w2, w3,
    is_in_season, pairLe, MAX_PAW, IRRIGATION_TRIGGER_LEVEL, MAX_DAILY_IRRIGATION,
    min_def, max_def]

theorem wrows_get1 : (run_irrigation_simulation wrows).get? 1 = some w1 := by
  rw [wrows_run_eval]
  rfl

theorem wrows_get2 : (run_irrigation_simulation wrows).get? 2 = some w2 := by
  rw [wrows_run_eval]
  rfl

theorem wrows_simple_eval : consumedGroundwaterSimple wrows = [0, 2, 5, 11/2] := by
  norm_num [consumedGroundwaterSimple, wrows, cumsum, max_def]

theorem claim_irrigation_rule_witness :
    ((run_irrigation_simulation wrows).get? 1 = some w1
     ∧ (run_irrigation_simulation wrows).get? 2 = some w2)
    ∧ (w2.irr = spec_irrigation w1 w2
       ∧ (is_in_season w2.date = false → w2.irr = 0)
       ∧ w2.irr ≤ MAX_DAILY_IRRIGATION) :=
  ⟨⟨wrows_get1, wrows_get2⟩, claim_irrigation_rule wrows 1 w1 w2 wrows_get1 wrows_get2⟩

theorem claim_consumed_monotone_witness :
    ((run_irrigation_simulation wrows).get? 1 = some w1
     ∧ (run_irrigation_simulation wrows).get? 2 = some w2)
    ∧ (w2.consumed = w1.consumed + w2.irr ∧ w1.consumed ≤ w2.consumed) :=
  ⟨⟨wrows_get1, wrows_get2⟩, claim_consumed_monotone wrows 1 w1 w2 wrows_get1 wrows_get2⟩

theorem claim_paw_bounds_witness :
    (run_irrigation_simulation wrows).get? 2 = some w2
    ∧ (0 ≤ w2.paw ∧ w2.paw ≤ MAX_PAW) :=
  ⟨wrows_get2, claim_paw_bounds wrows 2 w2 wrows_get2⟩

theorem claim_season_reset_witness :
    ((run_irrigation_simulation wrows).get? 1 = some w1
     ∧ wrows.get? 2 = some wrow2
     ∧ (run_irrigation_simulation wrows).get? 2 = some w2
     ∧ is_in_season wrow2.date = true
     ∧ is_in_season w1.date = false)
    ∧ w2 = stepOut w1.date MAX_PAW w1.consumed wrow2 :=
  ⟨⟨wrows_get1, rfl, wrows_get2, by decide, by decide⟩,
    claim_season_reset wrows 1 w1 w2 wrow2 wrows_get1 rfl wrows_get2
      (by decide) (by decide)⟩

theorem claim_simple_accounting_witness :
    (wrows.get? 2 = some wrow2
     ∧ (consumedGroundwaterSimple wrows).get? 1 = some 2
     ∧ (consumedGroundwaterSimple wrows).get? 2 = some 5)
    ∧ ((5 : ℚ) = 2 + max (wrow2.et.getD 0 - wrow2.precip.getD 0) 0
       ∧ (consumedGroundwaterSimple wrows).length = wrows.length
       ∧ (run_irrigation_simulation wrows).length = wrows.length) :=
  ⟨⟨rfl, by rw [wrows_simple_eval]; rfl, by rw [wrows_simple_eval]; rfl⟩,
    claim_simple_accounting wrows 1 wrow2 2 5 rfl
      (by rw [wrows_simple_eval]; rfl) (by rw [wrows_simple_eval]; rfl)⟩

theorem claim_noninterference_witness :
    (wrows.map (fun r => r.date) = wrows2.map (fun r => r.date)
     ∧ wrows.map (fun r => r.et) = wrows2.map (fun r => r.et)
     ∧ wrows.map (fun r => r.precip) = wrows2.map (fun r => r.precip))
    ∧ (run_irrigation_simulation wrows).map outSim
        = (run_irrigation_simulation wrows2).map outSim :=
  ⟨⟨rfl, rfl, rfl⟩, claim_noninterference wrows wrows2 rfl rfl rfl⟩

end FlyingKFarms
